import Mathlib

/-!
Verification of the VoicePay recurring-payment scheduler.

This file is a shallow embedding, in Lean 4, of the core of the VoicePay
backend:

* the JavaScript `Date` arithmetic used by `incrementNextRunIso` in
  `cloudflare/voicepay-worker/src/worker.js` (UTC timestamps are modelled as
  integral milliseconds since the Unix epoch, exactly as ECMAScript stores
  them internally; the calendar conversions implement the ECMAScript
  `YearFromTime` / `MonthFromTime` / `DateFromTime` / `MakeDay` / `MakeDate`
  specification functions via the standard proleptic-Gregorian civil-date
  algorithms);
* the per-user durable object (`WalletDurableObject`): nonce issue and
  signature verification, recipient resolution by name, transaction storage,
  and schedule updates;
* the KV schedule index and the cron handler `processDueSchedules`;
* the Express middleware `workerAuth` (timestamped HMAC service auth).

Crypto primitives (`ethers.verifyMessage`, HMAC-SHA-256) are modelled as
abstract functions: the embedded code only observes the behaviour the real
code observes (throw / no-throw, string equality of digests).
-/

/-- Truthiness of a nullable string: JavaScript treats `null`, `undefined`
and `""` as falsy. -/
def strTruthy : Option String → Bool
  | some s => !(s == "")
  | none => false

/-- JavaScript `x || y` on nullable strings: keeps `x` when truthy. -/
def jsOr (x y : Option String) : Option String :=
  if strTruthy x then x else y

/-- JavaScript `x || d` where the fallback `d` is a plain string. -/
def jsOrD (x : Option String) (d : String) : String :=
  match x with
  | some s => if s == "" then d else s
  | none => d

/-- Truthiness of a nullable rational (JavaScript numbers: `0` is falsy). -/
def ratTruthy : Option ℚ → Bool
  | some q => !(q == 0)
  | none => false

/-- JavaScript `x || null` on a nullable integer (`0` collapses to `null`). -/
def jsOrNumNull (x : Option Int) : Option Int :=
  match x with
  | some n => if n == 0 then none else some n
  | none => none

/-- ASCII lowercasing of one character. -/
def lowerChar (c : Char) : Char :=
  match c with
  | 'A' => 'a' | 'B' => 'b' | 'C' => 'c' | 'D' => 'd' | 'E' => 'e' | 'F' => 'f'
  | 'G' => 'g' | 'H' => 'h' | 'I' => 'i' | 'J' => 'j' | 'K' => 'k' | 'L' => 'l'
  | 'M' => 'm' | 'N' => 'n' | 'O' => 'o' | 'P' => 'p' | 'Q' => 'q' | 'R' => 'r'
  | 'S' => 's' | 'T' => 't' | 'U' => 'u' | 'V' => 'v' | 'W' => 'w' | 'X' => 'x'
  | 'Y' => 'y' | 'Z' => 'z' | c => c

/-- ASCII lowercasing, the fragment of `String.prototype.toLowerCase`
exercised by the code. -/
def jsToLower (s : String) : String := ⟨s.data.map lowerChar⟩

/-- ASCII whitespace test, the fragment of the `trim` character class the
code exercises. -/
def isWsChar (c : Char) : Bool :=
  c == ' ' || c == '\t' || c == '\n' || c == '\r'

/-- Whitespace trimming (`String.prototype.trim`). -/
def jsTrim (s : String) : String :=
  ⟨((s.data.dropWhile isWsChar).reverse.dropWhile isWsChar).reverse⟩

/-- List-of-characters prefix test, used to implement `String.includes`. -/
def startsWithChars : List Char → List Char → Bool
  | [], _ => true
  | _ :: _, [] => false
  | a :: as, b :: bs => a == b && startsWithChars as bs

/-- List-of-characters substring test. -/
def hasSubChars : List Char → List Char → Bool
  | s, sub =>
    match s with
    | [] => sub.isEmpty
    | _ :: rest => startsWithChars sub s || hasSubChars rest sub

/-- JavaScript `s.includes(sub)`. -/
def jsIncludes (s sub : String) : Bool := hasSubChars s.data sub.data

/-- Day number (days since 1970-01-01) of the civil date `(y, m, d)`,
months 1–12.  This is the standard civil-from-date algorithm over floored
integer division, implementing ECMAScript `MakeDay` for in-range months. -/
def daysFromCivil (y m d : Int) : Int :=
  let y' := if m ≤ 2 then y - 1 else y
  let era := y' / 400
  let yoe := y' - era * 400
  let mp := if 2 < m then m - 3 else m + 9
  let doy := (153 * mp + 2) / 5 + d - 1
  let doe := yoe * 365 + yoe / 4 - yoe / 100 + doy
  era * 146097 + doe - 719468

/-- Civil date `(year, month 1–12, day 1–31)` of a day number,
implementing ECMAScript `YearFromTime` / `MonthFromTime` / `DateFromTime`. -/
def civilFromDays (z : Int) : Int × Int × Int :=
  let z' := z + 719468
  let era := z' / 146097
  let doe := z' - era * 146097
  let yoe := (doe - doe / 1460 + doe / 36524 - doe / 146096) / 365
  let y := yoe + era * 400
  let doy := doe - (365 * yoe + yoe / 4 - yoe / 100)
  let mp := (5 * doy + 2) / 153
  let d := doy - (153 * mp + 2) / 5 + 1
  let m := mp + if mp < 10 then 3 else -9
  (if m ≤ 2 then y + 1 else y, m, d)

/-- Gregorian leap-year predicate. -/
def isLeap (y : Int) : Bool := y % 4 = 0 && (y % 100 ≠ 0 || y % 400 = 0)

/-- Length in days of month `m` (1–12) of year `y`. -/
def monthLen (y m : Int) : Int :=
  if m = 2 then (if isLeap y then 29 else 28)
  else if m = 4 ∨ m = 6 ∨ m = 9 ∨ m = 11 then 30 else 31

/-- ECMAScript `Day(t)`: floor of `t / msPerDay`. -/
def jsDay (t : Int) : Int := t / 86400000

/-- ECMAScript `TimeWithinDay(t)`: `t modulo msPerDay`, always in
`[0, msPerDay)`. -/
def jsTimeWithinDay (t : Int) : Int := t % 86400000

/-- UTC year of a timestamp (`getUTCFullYear`). -/
def utcYear (t : Int) : Int := (civilFromDays (jsDay t)).1

/-- UTC month of a timestamp, 1-based (ECMAScript `getUTCMonth` returns
this value minus one). -/
def utcMonth (t : Int) : Int := (civilFromDays (jsDay t)).2.1

/-- UTC day-of-month of a timestamp (`getUTCDate`). -/
def utcDate (t : Int) : Int := (civilFromDays (jsDay t)).2.2

/-- ECMAScript `MakeDay(y, m, dt)` with 0-based month `m`, which it
normalizes into the year. -/
def makeDay (y m dt : Int) : Int :=
  daysFromCivil (y + m / 12) (m % 12 + 1) 1 + (dt - 1)

/-- ECMAScript `MakeDate(day, time)`. -/
def makeDate (day time : Int) : Int := day * 86400000 + time

/-- ECMAScript `setUTCDate`. -/
def setUTCDate (t dt : Int) : Int :=
  makeDate (makeDay (utcYear t) (utcMonth t - 1) dt) (jsTimeWithinDay t)

/-- ECMAScript `setUTCMonth` (0-based month argument). -/
def setUTCMonth (t m : Int) : Int :=
  makeDate (makeDay (utcYear t) m (utcDate t)) (jsTimeWithinDay t)

/-- ECMAScript `setUTCFullYear` (keeps month and day-of-month fields). -/
def setUTCFullYear (t y : Int) : Int :=
  makeDate (makeDay y (utcMonth t - 1) (utcDate t)) (jsTimeWithinDay t)

/-- Interval advancement switch of `incrementNextRunIso` (reached when the
`intervalMs` guard fails): the `switch (interval)` statement. -/
def incrementByInterval (t : Int) (interval : Option String) : Int :=
  if interval = some "daily" then setUTCDate t (utcDate t + 1)
  else if interval = some "weekly" then setUTCDate t (utcDate t + 7)
  else if interval = some "monthly" then setUTCMonth t (utcMonth t - 1 + 1)
  else if interval = some "yearly" then setUTCFullYear t (utcYear t + 1)
  else setUTCDate t (utcDate t + 1)

/-- `incrementNextRunIso(isoString, interval, intervalMs)` with the ISO
string replaced by its epoch-millisecond value.  The JavaScript guard
`intervalMs && Number.isFinite(intervalMs)` passes exactly when
`intervalMs` is a finite non-zero number, modelled as `some k` with
`k ≠ 0`. -/
def incrementNextRun (t : Int) (interval : Option String) (intervalMs : Option Int) : Int :=
  match intervalMs with
  | some k => if k ≠ 0 then t + k else incrementByInterval t interval
  | none => incrementByInterval t interval

/-- Recipient record stored in a user shard (`data.recipients`). -/
structure Recipient where
  name : String
  wallet : String
  note : String
deriving DecidableEq, Repr

/-- Payload accepted by the durable object `storeTransaction` endpoint.
JavaScript objects are open maps; every key the function reads is a field
here, absent keys being `none`.  `id`, `timestamp` and `scheduleId` can be
supplied by callers (the backend bridge sends `timestamp` and `scheduleId`)
but are never read by `storeTransaction`. -/
structure TxInput where
  address : Option String := none
  recipient : Option String := none
  toAddr : Option String := none
  amount : Option ℚ := none
  intent : Option String := none
  type : Option String := none
  start_date : Option String := none
  time_of_day : Option String := none
  currency : Option String := none
  name : Option String := none
  note : Option String := none
  status : Option String := none
  txHash : Option String := none
  interval : Option String := none
  times : Option Int := none
  id : Option String := none
  timestamp : Option String := none
  scheduleId : Option String := none
deriving DecidableEq, Repr

/-- Transaction record as written by `storeTransaction`: exactly the keys
the code puts in `entry`.  The code writes no `scheduleId` key; reading the
absent key yields `undefined`, modelled as a field that is always `none`. -/
structure TxEntry where
  id : String
  name : Option String
  type : String
  address : String
  amount : ℚ
  currency : String
  start_date : String
  time_of_day : Option String
  interval : Option String
  times : Option Int
  note : String
  status : String
  txHash : Option String
  timestamp : String
  scheduleId : Option String
deriving DecidableEq, Repr

/-- Schedule record stored in a user shard (`data.schedules`).  `nextRun`
is kept as epoch milliseconds (the code stores the equivalent ISO string). -/
structure Schedule where
  id : String
  name : Option String := none
  recipient : String
  amount : ℚ
  currency : String := "USDC"
  interval : Option String := none
  intervalMs : Option Int := none
  start_date : String := ""
  time_of_day : Option String := none
  times : Option Int := none
  times_remaining : Option Int := none
  note : Option String := none
  nextRun : Int
  created_at : String := ""
  active : Bool := true
deriving DecidableEq, Repr

/-- Patch object sent to `/update-schedule`; the spread
`{ ...schedule, ...patch }` overrides exactly the keys present. -/
structure SchedulePatch where
  nextRun : Option Int := none
  times_remaining : Option (Option Int) := none
  active : Option Bool := none
deriving DecidableEq, Repr

def applyPatch (s : Schedule) (p : SchedulePatch) : Schedule :=
  { s with
    nextRun := p.nextRun.getD s.nextRun
    times_remaining := p.times_remaining.getD s.times_remaining
    active := p.active.getD s.active }

/-- Auth envelope stored under the `auth` storage key. -/
structure AuthState where
  nonce : Option String := none
  updated_at : Option String := none
deriving DecidableEq, Repr

/-- The single `data` storage envelope of a user shard. -/
structure ShardData where
  recipients : List Recipient := []
  transactions : List TxEntry := []
  schedules : List Schedule := []
deriving DecidableEq, Repr

/-- `handleNonce`: draws `Math.floor(Math.random() * 1_000_000)` (the
random draw `r ∈ [0, 1)` is a parameter), stores the decimal string as the
new nonce, and returns it. -/
def handleNonce (r : ℚ) (nowIso : String) (auth : AuthState) : String × AuthState :=
  let nonce := (Int.toNat ⌊r * 1000000⌋).repr
  (nonce, { auth with nonce := some nonce, updated_at := some nowIso })

/-- Canonical signed-message template of `handleVerify`. -/
def canonicalMessage (nonce : String) : String :=
  "Welcome to VoicePay!\n\nTo securely sign in, please confirm this message.\n\nSecurity code: "
    ++ nonce
    ++ "\n\nThis signature will not trigger any blockchain transaction or gas fee."

/-- Abstract wallet signature: `signer` produced it over `message`;
`wellFormed` says the signature bytes parse as a valid ECDSA signature. -/
structure EthSig where
  wellFormed : Bool
  signer : String
  message : String
deriving DecidableEq, Repr

/-- Model of `ethers.verifyMessage(msg, sig)`: throws (`none`) exactly on
malformed signature bytes; otherwise returns a recovered address, which is
the true signer when the message matches and an unrelated address when it
does not.  `handleVerify` discards this return value. -/
def verifyMessage (msg : String) (sig : EthSig) : Option String :=
  if sig.wellFormed then
    some (if sig.message == msg then sig.signer else "0xRECOVERED" ++ sig.signer)
  else none

/-- A cryptographically valid signature over `msg` by `addr`. -/
def validSignatureFor (addr msg : String) (sig : EthSig) : Prop :=
  sig.wellFormed = true ∧ sig.message = msg ∧ sig.signer = addr

inductive VerifyOutcome where
  | ok
  | invalidFormat
  | nonceMissing
deriving DecidableEq, Repr

/-- `handleVerify(address, signature)`.  The `address` parameter is received
but never used by the code. -/
def handleVerify (address : String) (auth : AuthState) (sig : EthSig) :
    VerifyOutcome × AuthState :=
  if !(strTruthy auth.nonce) then (.nonceMissing, auth)
  else
    let message := canonicalMessage (auth.nonce.getD "")
    match verifyMessage message sig with
    | none => (.invalidFormat, auth)
    | some _ => (.ok, { auth with nonce := none })

inductive NameMatch where
  | exactM (r : Recipient)
  | subM (r : Recipient)
  | ambiguousM (options : List Recipient)
  | notFoundM
deriving DecidableEq, Repr

/-- `getRecipientByName(name)`. -/
def getRecipientByName (recipients : List Recipient) (name : String) : NameMatch :=
  let query := jsTrim (jsToLower name)
  let exactMatches := recipients.filter (fun r => jsToLower r.name == query)
  match exactMatches with
  | [r] => .exactM r
  | _ :: _ :: _ => .ambiguousM exactMatches
  | [] =>
    let part := recipients.filter (fun r => jsIncludes (jsToLower r.name) query)
    match part with
    | [] => .notFoundM
    | [r] => .subM r
    | _ => .ambiguousM part

/-- `storeTransaction(tx)`.  `freshId` is the `uuidv4()` draw, `nowIso` the
current `new Date().toISOString()`, and `today` its date part (used as the
`start_date` fallback).  Returns `none` on the 400 "missing required
fields" response, in which case nothing is stored. -/
def storeTransaction (freshId nowIso today : String) (tx : TxInput)
    (st : ShardData) : Option (ShardData × TxEntry) :=
  let naddress := jsOr tx.address (jsOr tx.recipient (jsOr tx.toAddr none))
  let nintent := jsOrD tx.intent (jsOrD tx.type "recurring")
  let nstart := jsOrD tx.start_date today
  let nstatus := jsOrD tx.status "completed"
  let ntxHash := jsOr tx.txHash none
  let nnote := jsOr tx.note none
  match naddress, tx.amount with
  | some a, some amt =>
    if amt == 0 ∨ nintent == "" ∨ nstart == "" then none
    else
      let entry : TxEntry :=
        { id := freshId
          name := jsOr tx.name none
          type := nintent
          address := a
          amount := amt
          currency := jsOrD tx.currency "USDC"
          start_date := nstart
          time_of_day := jsOr tx.time_of_day none
          interval := jsOr tx.interval none
          times := jsOrNumNull tx.times
          note := jsOrD nnote "NA"
          status := nstatus
          txHash := ntxHash
          timestamp := nowIso
          scheduleId := none }
      some ({ st with transactions := st.transactions ++ [entry] }, entry)
  | _, _ => none

/-- Replace the first schedule whose `id` matches, merging the patch
(`findIndex` + object spread in `updateSchedule`); `none` models the thrown
"schedule not found". -/
def patchFirst : List Schedule → String → SchedulePatch → Option (List Schedule)
  | [], _, _ => none
  | c :: rest, sid, p =>
    if c.id == sid then some (applyPatch c p :: rest)
    else (patchFirst rest sid p).map (c :: ·)

/-- `updateSchedule(scheduleId, patch)`. -/
def updateSchedule (st : ShardData) (scheduleId : String) (p : SchedulePatch) :
    Option ShardData :=
  (patchFirst st.schedules scheduleId p).map (fun l => { st with schedules := l })

/-- `deleteSchedule(scheduleId)`. -/
def deleteSchedule (st : ShardData) (scheduleId : String) : ShardData :=
  { st with schedules := st.schedules.filter (fun s => !(s.id == scheduleId)) }

/-- Index entry written to `SCHEDULE_KV` by `writeScheduleIndex`. -/
structure IndexEntry where
  scheduleId : String
  userAddress : String
  nextRun : Int
  recipient : String
  amount : ℚ
  currency : String := "USDC"
  interval : Option String := none
  intervalMs : Option Int := none
  times : Option Int := none
  times_remaining : Option Int := none
  name : Option String := none
  note : Option String := none
  created_at : String := ""
deriving DecidableEq, Repr

/-- The KV namespace as an association list keyed by `scheduleId`. -/
abbrev KvStore := List (String × IndexEntry)

def kvPut (kv : KvStore) (k : String) (v : IndexEntry) : KvStore :=
  (k, v) :: kv.filter (fun p => !(p.1 == k))

def kvDelete (kv : KvStore) (k : String) : KvStore :=
  kv.filter (fun p => !(p.1 == k))

def kvGet (kv : KvStore) (k : String) : Option IndexEntry :=
  (kv.find? (fun p => p.1 == k)).map (·.2)

/-- `listAllSchedulesFromKV`: every stored entry (order immaterial). -/
def kvListAll (kv : KvStore) : List IndexEntry := kv.map (·.2)

/-- Response of the backend `/transactions/process-recurring` call as the
cron observes it: HTTP-level `resp.ok`, the parsed JSON `ok` flag, and the
optional `txHash` / `error` / `status` fields. -/
structure ExecResp where
  respOk : Bool
  jsonOk : Bool
  txHash : Option String := none
  error : Option String := none
  status : Int := 200
deriving DecidableEq, Repr

/-- Success test of the cron:
`resp.ok && respJson && (respJson.ok || respJson.txHash)`. -/
def execSuccess (r : ExecResp) : Bool :=
  r.respOk && (r.jsonOk || strTruthy r.txHash)

/-- Per-user shards, keyed by lower-cased user address
(`WALLET_DO.idFromName(addr.toLowerCase())`); absent shards start empty. -/
abbrev ShardMap := List (String × ShardData)

def shardOf (shards : ShardMap) (key : String) : ShardData :=
  ((shards.find? (fun p => p.1 == key)).map (·.2)).getD {}

def shardPut (shards : ShardMap) (key : String) (d : ShardData) : ShardMap :=
  (key, d) :: shards.filter (fun p => !(p.1 == key))

/-- Combined state the dispatcher touches. -/
structure SystemState where
  kv : KvStore
  shards : ShardMap
deriving DecidableEq, Repr

/-- Per-tick environment: `now` is the `Date.now()` captured at tick start,
`retryNow` the `Date.now()` drawn when scheduling a failure retry,
`resp` the backend response per `scheduleId`, `freshId` the `uuidv4()` draw
used for the stored transaction, and `nowIso` / `today` the clock strings. -/
structure TickEnv where
  now : Int
  retryNow : Int
  resp : String → ExecResp
  freshId : String → String
  nowIso : String
  today : String

/-- Test `s.times_remaining !== null && s.times_remaining <= 0` applied to
the decremented counter. -/
def timesFinished : Option Int → Bool
  | some v => decide (v ≤ 0)
  | none => false

/-- Loop body of `processDueSchedules` for one listed index entry `s`. -/
def processScheduleEntry (env : TickEnv) (st : SystemState) (s : IndexEntry) :
    SystemState :=
  if s.nextRun > env.now then st
  else
    let resp := env.resp s.scheduleId
    let key := jsToLower s.userAddress
    let shard := shardOf st.shards key
    if execSuccess resp then
      let txRecord : TxInput :=
        { name := some "Recurring Payment"
          intent := some "recurring"
          amount := some s.amount
          note := some (jsOrD s.note "")
          status := some "completed"
          recipient := some s.recipient
          start_date := some env.nowIso
          txHash := jsOr resp.txHash none
          address := some s.recipient }
      let shard1 :=
        match storeTransaction (env.freshId s.scheduleId) env.nowIso env.today txRecord shard with
        | some (d, _) => d
        | none => shard
      let tr := s.times_remaining.map (fun v => v - 1)
      let nr := incrementNextRun s.nextRun s.interval s.intervalMs
      if timesFinished tr then
        let kv1 := kvDelete st.kv s.scheduleId
        let shard2 :=
          (updateSchedule shard1 s.scheduleId
            { active := some false, times_remaining := some (some 0) }).getD shard1
        { kv := kv1, shards := shardPut st.shards key shard2 }
      else
        let s1 := { s with times_remaining := tr, nextRun := nr }
        let kv1 := kvPut st.kv s.scheduleId s1
        let shard2 :=
          (updateSchedule shard1 s.scheduleId
            { nextRun := some nr, times_remaining := some tr }).getD shard1
        { kv := kv1, shards := shardPut st.shards key shard2 }
    else
      let txRecord : TxInput :=
        { name := some "Recurring Payment"
          intent := some "recurring"
          amount := some s.amount
          note := some (jsOrD resp.error ("backend error: " ++ toString resp.status))
          status := some "failed"
          recipient := some s.recipient
          start_date := some env.nowIso
          txHash := none
          address := some s.recipient }
      let shard1 :=
        match storeTransaction (env.freshId s.scheduleId) env.nowIso env.today txRecord shard with
        | some (d, _) => d
        | none => shard
      let nr := env.retryNow + 600000
      let s1 := { s with nextRun := nr }
      let kv1 := kvPut st.kv s.scheduleId s1
      let shard2 :=
        (updateSchedule shard1 s.scheduleId { nextRun := some nr }).getD shard1
      { kv := kv1, shards := shardPut st.shards key shard2 }

/-- `processDueSchedules(env)`: list the index once, then process each
listed entry in order against the evolving state. -/
def processDueSchedules (env : TickEnv) (st : SystemState) : SystemState :=
  (kvListAll st.kv).foldl (processScheduleEntry env) st

/-- Schedule ids dispatched (fired) by one tick: the listed entries that are
due at tick start. -/
def firedIds (env : TickEnv) (st : SystemState) : List String :=
  ((kvListAll st.kv).filter (fun s => !(s.nextRun > env.now))).map (·.scheduleId)

/-- Run a sequence of cron ticks. -/
def runTicks (envs : List TickEnv) (st : SystemState) : SystemState :=
  envs.foldl (fun acc e => processDueSchedules e acc) st

/-- All schedule ids fired over a sequence of ticks. -/
def firedDuring : List TickEnv → SystemState → List String
  | [], _ => []
  | e :: rest, st => firedIds e st ++ firedDuring rest (processDueSchedules e st)

/-- KV well-formedness: every stored pair is keyed by its entry id. -/
def kvWF (kv : KvStore) : Prop := ∀ p ∈ kv, p.1 = p.2.scheduleId

/-- Request as seen by the middleware: the method, the two worker headers
(the timestamp header holds a decimal number, modelled by its value), and
the raw body bytes. -/
structure AuthReq where
  method : String
  signature : Option String
  timestamp : Option Int
  body : String
deriving DecidableEq, Repr

inductive AuthOutcome where
  | reject (status : Nat) (error : String)
  | proceed
deriving DecidableEq, Repr

/-- Does the middleware outcome carry an HTTP 403 (forbidden) status? -/
def isForbidden : AuthOutcome → Bool
  | .reject 403 _ => true
  | _ => false

/-- `workerAuth(req, res, next)`; `hmac key msg` abstracts
`crypto.createHmac("sha256", key).update(msg).digest("hex")`. -/
def workerAuth (hmac : String → String → String) (secret : String) (now : Int)
    (req : AuthReq) : AuthOutcome :=
  if req.method ≠ "POST" ∧ req.method ≠ "PUT" then
    .reject 405 "Method not allowed"
  else if !(strTruthy req.signature) ∨ req.timestamp = none then
    .reject 401 "Missing worker signature"
  else
    match req.signature, req.timestamp with
    | some sig, some ts =>
      if 5 * 60 * 1000 < |now - ts| then .reject 401 "Timestamp too old"
      else
        let expected := hmac secret (toString ts ++ req.body)
        if sig ≠ expected then .reject 403 "Invalid worker signature"
        else .proceed
    | _, _ => .reject 401 "Missing worker signature"

/-- Transaction entry produced by `storeTransaction` for the records the
cron builds (success and failure paths share this shape). -/
def cronEntry (fid nowIso rec noteStr statusStr : String) (amt : ℚ)
    (txh : Option String) : TxEntry :=
  { id := fid
    name := some "Recurring Payment"
    type := "recurring"
    address := rec
    amount := amt
    currency := "USDC"
    start_date := nowIso
    time_of_day := none
    interval := none
    times := none
    note := jsOrD (some noteStr) "NA"
    status := statusStr
    txHash := jsOr txh none
    timestamp := nowIso
    scheduleId := none }

def c1entry : IndexEntry :=
  { scheduleId := "sch-1", userAddress := "0xAlice", nextRun := 1738281600000,
    recipient := "0xBob", amount := 5, interval := some "daily",
    times_remaining := some 3 }

def c1env : TickEnv :=
  { now := 1738281600000, retryNow := 1738281601000,
    resp := fun _ => { respOk := true, jsonOk := true, txHash := some "0xhash1" },
    freshId := fun _ => "uuid-1", nowIso := "2025-01-31T00:00:10.000Z",
    today := "2025-01-31" }

def c1state : SystemState := { kv := [("sch-1", c1entry)], shards := [] }

def c5sched : Schedule :=
  { id := "sch-5", recipient := "0xDan", amount := 7, nextRun := 1000,
    interval := some "weekly", times_remaining := some 1 }

def c5entry : IndexEntry :=
  { scheduleId := "sch-5", userAddress := "0xCarol", nextRun := 1000,
    recipient := "0xDan", amount := 7, interval := some "weekly",
    times_remaining := some 1 }

def c5env : TickEnv :=
  { now := 2000, retryNow := 2500,
    resp := fun _ => { respOk := true, jsonOk := true, txHash := some "0xh5" },
    freshId := fun _ => "uuid-5", nowIso := "2025-02-01T00:00:00.000Z",
    today := "2025-02-01" }

def c5state : SystemState :=
  { kv := [("sch-5", c5entry)], shards := [("0xcarol", { schedules := [c5sched] })] }

def c6entry : IndexEntry :=
  { scheduleId := "sch-6", userAddress := "0xErin", nextRun := 5000,
    recipient := "0xFred", amount := 9, interval := some "monthly",
    times_remaining := some 4 }

def c6env : TickEnv :=
  { now := 6000, retryNow := 6500,
    resp := fun _ => { respOk := false, jsonOk := false, txHash := none,
                       error := some "Contract call failed", status := 500 },
    freshId := fun _ => "uuid-6", nowIso := "2025-03-01T00:00:00.000Z",
    today := "2025-03-01" }

def c6state : SystemState := { kv := [("sch-6", c6entry)], shards := [] }

def c7r1 : Recipient := { name := " alice", wallet := "0x1", note := "" }

def c7r2 : Recipient := { name := "malice", wallet := "0x2", note := "" }

def c7wr : Recipient := { name := "Alice", wallet := "0x1", note := "" }

def c8hmac : String → String → String := fun k m => k ++ "#" ++ m

def c8req : AuthReq :=
  { method := "POST", signature := some (c8hmac "sec" ("1000000" ++ "BODY")),
    timestamp := some 1000000, body := "BODY" }

def c9tx : TxInput :=
  { address := some "0xEd", amount := some 3, intent := some "send_once",
    start_date := some "2025-01-01", id := some "caller-id",
    timestamp := some "caller-ts", scheduleId := some "sch-9" }

theorem doy_bounds_lo (doe yoe doy : Int)
    (h : 0 ≤ doe ∧ doe ≤ 1459)
    (hyoe : yoe = (doe - doe / 1460 + doe / 36524 - doe / 146096) / 365)
    (hdoy : doy = doe - (365 * yoe + yoe / 4 - yoe / 100)) :
    0 ≤ doy ∧ doy ≤ 365 := by omega

set_option maxHeartbeats 4000000 in
theorem doy_bounds_mid (doe yoe doy : Int)
    (h : 1460 ≤ doe ∧ doe ≤ 36523)
    (hyoe : yoe = (doe - doe / 1460 + doe / 36524 - doe / 146096) / 365)
    (hdoy : doy = doe - (365 * yoe + yoe / 4 - yoe / 100)) :
    0 ≤ doy ∧ doy ≤ 365 := by
  set b := doe / 1460 with hb
  have hb1 : 1 ≤ b := by omega
  have hb2 : b ≤ 25 := by omega
  interval_cases b <;> omega

set_option maxHeartbeats 8000000 in
theorem doy_bounds_hi1 (doe yoe doy : Int)
    (h : 36524 ≤ doe ∧ doe ≤ 91999)
    (hyoe : yoe = (doe - doe / 1460 + doe / 36524 - doe / 146096) / 365)
    (hdoy : doy = doe - (365 * yoe + yoe / 4 - yoe / 100)) :
    0 ≤ doy ∧ doy ≤ 365 := by
  set b := doe / 1460 with hb
  have hb1 : 25 ≤ b := by omega
  have hb2 : b ≤ 63 := by omega
  interval_cases b <;>
    first
    | omega
    | (rcases (by omega : doe < 36524 ∨ (36524 ≤ doe ∧ doe < 37254) ∨ 37254 ≤ doe)
        with hc | hc | hc <;> omega)
    | (rcases (by omega : doe < 73048 ∨ (73048 ≤ doe ∧ doe < 73778) ∨ 73778 ≤ doe)
        with hc | hc | hc <;> omega)

set_option maxHeartbeats 8000000 in
theorem doy_bounds_hi2 (doe yoe doy : Int)
    (h : 92000 ≤ doe ∧ doe ≤ 119719)
    (hyoe : yoe = (doe - doe / 1460 + doe / 36524 - doe / 146096) / 365)
    (hdoy : doy = doe - (365 * yoe + yoe / 4 - yoe / 100)) :
    0 ≤ doy ∧ doy ≤ 365 := by
  set b := doe / 1460 with hb
  have hb1 : 63 ≤ b := by omega
  have hb2 : b ≤ 81 := by omega
  interval_cases b <;>
    first
    | omega
    | (rcases (by omega : doe < 109572 ∨ (109572 ≤ doe ∧ doe < 110302) ∨ 110302 ≤ doe)
        with hc | hc | hc <;> omega)

set_option maxHeartbeats 8000000 in
theorem doy_bounds_hi3 (doe yoe doy : Int)
    (h : 119720 ≤ doe ∧ doe ≤ 146096)
    (hyoe : yoe = (doe - doe / 1460 + doe / 36524 - doe / 146096) / 365)
    (hdoy : doy = doe - (365 * yoe + yoe / 4 - yoe / 100)) :
    0 ≤ doy ∧ doy ≤ 365 := by
  set b := doe / 1460 with hb
  have hb1 : 82 ≤ b := by omega
  have hb2 : b ≤ 100 := by omega
  interval_cases b <;>
    first
    | omega
    | (rcases (by omega : doe < 146096 ∨ doe = 146096) with hc | hc <;> omega)

theorem doy_bounds (doe yoe doy : Int)
    (h : 0 ≤ doe ∧ doe ≤ 146096)
    (hyoe : yoe = (doe - doe / 1460 + doe / 36524 - doe / 146096) / 365)
    (hdoy : doy = doe - (365 * yoe + yoe / 4 - yoe / 100)) :
    0 ≤ doy ∧ doy ≤ 365 := by
  rcases (by omega : (0 ≤ doe ∧ doe ≤ 1459) ∨ (1460 ≤ doe ∧ doe ≤ 36523) ∨
      (36524 ≤ doe ∧ doe ≤ 91999) ∨ (92000 ≤ doe ∧ doe ≤ 119719) ∨
      (119720 ≤ doe ∧ doe ≤ 146096)) with h' | h' | h' | h' | h'
  · exact doy_bounds_lo doe yoe doy h' hyoe hdoy
  · exact doy_bounds_mid doe yoe doy h' hyoe hdoy
  · exact doy_bounds_hi1 doe yoe doy h' hyoe hdoy
  · exact doy_bounds_hi2 doe yoe doy h' hyoe hdoy
  · exact doy_bounds_hi3 doe yoe doy h' hyoe hdoy

theorem mp_range (doy mp : Int) (h : 0 ≤ doy ∧ doy ≤ 365)
    (hmp : mp = (5 * doy + 2) / 153) : 0 ≤ mp ∧ mp ≤ 11 := by omega

set_option maxHeartbeats 1000000 in
theorem roundtrip_flat (z era doe yoe y doy mp d m : Int)
    (hera : era = (z + 719468) / 146097)
    (hdoe : doe = z + 719468 - era * 146097)
    (hyoe : yoe = (doe - doe / 1460 + doe / 36524 - doe / 146096) / 365)
    (hy : y = yoe + era * 400)
    (hdoy : doy = doe - (365 * yoe + yoe / 4 - yoe / 100))
    (hmp : mp = (5 * doy + 2) / 153)
    (hd : d = doy - (153 * mp + 2) / 5 + 1)
    (hm : m = mp + (if mp < 10 then 3 else -9)) :
    daysFromCivil (if m ≤ 2 then y + 1 else y) m d = z ∧
      (1 ≤ m ∧ m ≤ 12) ∧ (1 ≤ d ∧ d ≤ 31) := by
  have h1 : 0 ≤ doe ∧ doe ≤ 146096 := by omega
  have h2 : 0 ≤ yoe ∧ yoe ≤ 399 := by
    clear hdoy hmp hd hm hy
    omega
  have h3 : 0 ≤ doy ∧ doy ≤ 365 := doy_bounds doe yoe doy h1 hyoe hdoy
  have h4 : 0 ≤ mp ∧ mp ≤ 11 := mp_range doy mp h3 hmp
  have h5 : doe = 365 * yoe + yoe / 4 - yoe / 100 + doy := by omega
  have hz : z + 719468 = era * 146097 + doe := by omega
  have hdr : 1 ≤ d ∧ d ≤ 31 := by
    clear hyoe hdoy hy hm
    omega
  clear hyoe hmp hdoy hera hdoe
  have hb1 : y / 400 = era := by omega
  have hb2 : y - era * 400 = yoe := by omega
  refine ⟨?_, ?_, hdr⟩
  · simp only [daysFromCivil]
    rcases lt_or_ge mp 10 with hmo | hmo
    · rw [if_pos hmo] at hm
      subst hm
      rw [if_neg (by omega : ¬ (mp + 3 ≤ 2)), if_neg (by omega : ¬ (mp + 3 ≤ 2)),
          if_pos (by omega : 2 < mp + 3)]
      rw [hb1, hb2]
      have he : mp + 3 - 3 = mp := by ring
      rw [he]
      omega
    · rw [if_neg (by omega : ¬ mp < 10)] at hm
      subst hm
      rw [if_pos (by omega : mp + -9 ≤ 2), if_pos (by omega : mp + -9 ≤ 2)]
      have hy1 : y + 1 - 1 = y := by ring
      rw [hy1, hb1, hb2]
      rw [if_neg (by omega : ¬ (2 < mp + -9))]
      have he : mp + -9 + 9 = mp := by ring
      rw [he]
      omega
  · rcases lt_or_ge mp 10 with hmo | hmo
    · rw [if_pos hmo] at hm
      omega
    · rw [if_neg (by omega : ¬ mp < 10)] at hm
      omega

/-- The civil decomposition of any day number is a valid date and converts
back to the same day number. -/
theorem civil_spec (z : Int) :
    daysFromCivil (civilFromDays z).1 (civilFromDays z).2.1 (civilFromDays z).2.2 = z ∧
      (1 ≤ (civilFromDays z).2.1 ∧ (civilFromDays z).2.1 ≤ 12) ∧
      (1 ≤ (civilFromDays z).2.2 ∧ (civilFromDays z).2.2 ≤ 31) := by
  simp only [civilFromDays]
  exact roundtrip_flat z _ _ _ _ _ _ _ _ rfl rfl rfl rfl rfl rfl rfl rfl

/-- Day-of-month linearity of the day-number conversion. -/
theorem daysFromCivil_day (y m d : Int) :
    daysFromCivil y m d = daysFromCivil y m 1 + (d - 1) := by
  simp only [daysFromCivil]
  split_ifs <;> ring

set_option maxHeartbeats 4000000 in
theorem month_step (y m : Int) (h : 1 ≤ m ∧ m ≤ 12) :
    daysFromCivil (if m = 12 then y + 1 else y) (if m = 12 then 1 else m + 1) 1
      = daysFromCivil y m 1 + monthLen y m := by
  obtain ⟨h1, h2⟩ := h
  interval_cases m <;>
    simp only [daysFromCivil, monthLen, isLeap] <;>
    split_ifs <;>
    simp_all <;>
    omega

set_option maxHeartbeats 4000000 in
theorem year_step (y m : Int) (h : 1 ≤ m ∧ m ≤ 12) :
    daysFromCivil y m 1 + 365 ≤ daysFromCivil (y + 1) m 1 ∧
      daysFromCivil (y + 1) m 1 ≤ daysFromCivil y m 1 + 366 := by
  obtain ⟨h1, h2⟩ := h
  interval_cases m <;>
    simp only [daysFromCivil] <;>
    split_ifs <;>
    omega

theorem monthLen_pos (y m : Int) : 28 ≤ monthLen y m := by
  simp only [monthLen]
  split_ifs <;> omega

theorem utc_decomp (t : Int) :
    daysFromCivil (utcYear t) (utcMonth t) (utcDate t) = jsDay t :=
  (civil_spec (jsDay t)).1

theorem utcMonth_range (t : Int) : 1 ≤ utcMonth t ∧ utcMonth t ≤ 12 :=
  (civil_spec (jsDay t)).2.1

theorem utcDate_range (t : Int) : 1 ≤ utcDate t ∧ utcDate t ≤ 31 :=
  (civil_spec (jsDay t)).2.2

/-- `d.setUTCDate(d.getUTCDate() + k)` shifts the timestamp by exactly `k`
days. -/
theorem setUTCDate_shift (t k : Int) :
    setUTCDate t (utcDate t + k) = t + k * 86400000 := by
  have hm := utcMonth_range t
  have hd := utc_decomp t
  have hlin := daysFromCivil_day (utcYear t) (utcMonth t) (utcDate t)
  have h1 : (utcMonth t - 1) / 12 = 0 := by omega
  have h2 : (utcMonth t - 1) % 12 = utcMonth t - 1 := by omega
  have h3 : utcMonth t - 1 + 1 = utcMonth t := by ring
  simp only [setUTCDate, makeDay, makeDate, h1, h2, h3, add_zero]
  simp only [jsDay] at hd
  simp only [jsTimeWithinDay]
  omega

/-- `d.setUTCMonth(d.getUTCMonth() + 1)` shifts the timestamp by exactly the
length of the current UTC month. -/
theorem setUTCMonth_next (t : Int) :
    setUTCMonth t (utcMonth t - 1 + 1) =
      t + monthLen (utcYear t) (utcMonth t) * 86400000 := by
  have hm := utcMonth_range t
  have hd := utc_decomp t
  have hlin := daysFromCivil_day (utcYear t) (utcMonth t) (utcDate t)
  have hstep := month_step (utcYear t) (utcMonth t) hm
  have h3 : utcMonth t - 1 + 1 = utcMonth t := by ring
  simp only [setUTCMonth, makeDay, makeDate, h3]
  simp only [jsDay] at hd
  simp only [jsTimeWithinDay]
  rcases eq_or_ne (utcMonth t) 12 with h12 | h12
  · rw [h12] at hd hlin hstep ⊢
    norm_num at hstep ⊢
    omega
  · have ha : utcMonth t / 12 = 0 := by omega
    have hb : utcMonth t % 12 = utcMonth t := by omega
    simp only [if_neg h12] at hstep
    rw [ha, hb, add_zero]
    omega

/-- `d.setUTCFullYear(d.getUTCFullYear() + 1)` shifts the timestamp forward
by 365 or 366 days. -/
theorem setUTCFullYear_next (t : Int) :
    t + 365 * 86400000 ≤ setUTCFullYear t (utcYear t + 1) ∧
      setUTCFullYear t (utcYear t + 1) ≤ t + 366 * 86400000 := by
  have hm := utcMonth_range t
  have hd := utc_decomp t
  have hlin := daysFromCivil_day (utcYear t) (utcMonth t) (utcDate t)
  have hstep := year_step (utcYear t) (utcMonth t) hm
  have h1 : (utcMonth t - 1) / 12 = 0 := by omega
  have h2 : (utcMonth t - 1) % 12 = utcMonth t - 1 := by omega
  have h3 : utcMonth t - 1 + 1 = utcMonth t := by ring
  simp only [setUTCFullYear, makeDay, makeDate, h1, h2, h3, add_zero]
  simp only [jsDay] at hd
  simp only [jsTimeWithinDay]
  omega

theorem incrementByInterval_gt (t : Int) (interval : Option String) :
    t < incrementByInterval t interval := by
  unfold incrementByInterval
  have hml := monthLen_pos (utcYear t) (utcMonth t)
  have hms := setUTCMonth_next t
  have hys := setUTCFullYear_next t
  have hd1 := setUTCDate_shift t 1
  have hd7 := setUTCDate_shift t 7
  split_ifs <;> omega

theorem updateSchedule_transactions (st : ShardData) (sid : String) (p : SchedulePatch) :
    ((updateSchedule st sid p).getD st).transactions = st.transactions := by
  unfold updateSchedule
  rcases h : patchFirst st.schedules sid p with _ | l <;> simp

theorem shardOf_put (m : ShardMap) (k : String) (d : ShardData) :
    shardOf (shardPut m k d) k = d := by
  simp [shardOf, shardPut, List.find?]

theorem storeTransaction_cron (fid nowIso today rec noteStr statusStr : String)
    (amt : ℚ) (txh : Option String) (st : ShardData)
    (hrec : (rec == "") = false) (hamt : (amt == 0) = false)
    (hnow : (nowIso == "") = false) (hstat : (statusStr == "") = false) :
    storeTransaction fid nowIso today
      { address := some rec, recipient := some rec, toAddr := none,
        amount := some amt, intent := some "recurring", type := none,
        start_date := some nowIso, time_of_day := none, currency := none,
        name := some "Recurring Payment", note := some noteStr,
        status := some statusStr, txHash := txh, interval := none,
        times := none, id := none, timestamp := none, scheduleId := none } st
    = some ({ st with transactions :=
                st.transactions ++ [cronEntry fid nowIso rec noteStr statusStr amt txh] },
            cronEntry fid nowIso rec noteStr statusStr amt txh) := by
  have h1 : (("recurring" : String) == "") = false := by decide
  simp only [storeTransaction, cronEntry, jsOr, jsOrD, strTruthy, jsOrNumNull,
    h1, hrec, hamt, hnow, hstat, Bool.not_false, if_true, if_false]
  simp [hrec, hamt, hnow, hstat, h1]
  rcases eq_or_ne noteStr "" with h | h <;> simp [h]

/-- Claim C1 (amended): a successful fire appends exactly one transaction with
status `completed` to the user shard, carrying the executor-returned `txHash`;
the stored record has no `scheduleId` field (`storeTransaction` discards it),
so it cannot equal the fired schedule id. -/
theorem c1_success_appends_one_completed_tx
    (env : TickEnv) (st : SystemState) (s : IndexEntry)
    (hdue : ¬ s.nextRun > env.now)
    (hsucc : execSuccess (env.resp s.scheduleId) = true)
    (hrec : s.recipient ≠ "")
    (hamt : s.amount ≠ 0)
    (hnow : env.nowIso ≠ "") :
    ∃ e : TxEntry,
      (shardOf (processScheduleEntry env st s).shards (jsToLower s.userAddress)).transactions
        = (shardOf st.shards (jsToLower s.userAddress)).transactions ++ [e] ∧
      e.status = "completed" ∧
      e.txHash = jsOr (env.resp s.scheduleId).txHash none ∧
      e.scheduleId = none := by
  have hr' : (s.recipient == "") = false := by simpa using hrec
  have ha' : (s.amount == 0) = false := by simpa using hamt
  have hn' : (env.nowIso == "") = false := by simpa using hnow
  have hst : (("completed" : String) == "") = false := by decide
  simp only [processScheduleEntry, if_neg hdue, hsucc, if_true]
  rw [storeTransaction_cron (env.freshId s.scheduleId) env.nowIso env.today
    s.recipient (jsOrD s.note "") "completed" s.amount
    (jsOr (env.resp s.scheduleId).txHash none)
    (shardOf st.shards (jsToLower s.userAddress)) hr' ha' hn' hst]
  refine ⟨cronEntry (env.freshId s.scheduleId) env.nowIso s.recipient
      (jsOrD s.note "") "completed" s.amount (jsOr (env.resp s.scheduleId).txHash none),
    ?_, rfl, ?_, rfl⟩
  · cases htf : timesFinished (Option.map (fun v => v - 1) s.times_remaining) <;>
      simp [htf, shardOf_put, updateSchedule_transactions]
  · show jsOr (jsOr (env.resp s.scheduleId).txHash none) none = _
    rcases h : (env.resp s.scheduleId).txHash with _ | v
    · rfl
    · simp only [jsOr, strTruthy]
      split_ifs <;> simp_all

theorem find?_filter_ne (l : KvStore) (k q : String) (h : q ≠ k) :
    List.find? (fun p => p.1 == q) (l.filter (fun p => !(p.1 == k)))
      = List.find? (fun p => p.1 == q) l := by
  induction l with
  | nil => rfl
  | cons p rest ih =>
      by_cases hk : p.1 = k
      · have h1 : (p.1 == k) = true := by simpa using hk
        have h2 : (p.1 == q) = false := by simp [hk, Ne.symm h]
        simp [h1, h2, ih]
      · have h1 : (p.1 == k) = false := by simpa using hk
        by_cases hq : p.1 = q
        · have h2 : (p.1 == q) = true := by simpa using hq
          simp [h1, h2]
        · have h2 : (p.1 == q) = false := by simpa using hq
          simp [h1, h2, ih]

theorem kvGet_put (kv : KvStore) (k : String) (v : IndexEntry) :
    kvGet (kvPut kv k v) k = some v := by
  simp [kvGet, kvPut, List.find?]

theorem kvGet_put_ne (kv : KvStore) (k : String) (v : IndexEntry) (q : String)
    (h : q ≠ k) : kvGet (kvPut kv k v) q = kvGet kv q := by
  have h1 : (k == q) = false := by simp [Ne.symm h]
  simp [kvGet, kvPut, List.find?, h1, find?_filter_ne kv k q h]

theorem kvGet_delete (kv : KvStore) (k : String) :
    kvGet (kvDelete kv k) k = none := by
  simp only [kvGet, kvDelete, Option.map_eq_none']
  rw [List.find?_eq_none]
  intro p hp
  simp only [List.mem_filter] at hp
  simpa using hp.2

theorem kvGet_delete_ne (kv : KvStore) (k q : String) (h : q ≠ k) :
    kvGet (kvDelete kv k) q = kvGet kv q := by
  simp [kvGet, kvDelete, find?_filter_ne kv k q h]

theorem kvGet_none_delete (kv : KvStore) (k q : String)
    (h : kvGet kv q = none) : kvGet (kvDelete kv k) q = none := by
  by_cases hq : q = k
  · rw [hq]; exact kvGet_delete kv k
  · rw [kvGet_delete_ne kv k q hq]; exact h

theorem kvWF_put (kv : KvStore) (k : String) (v : IndexEntry)
    (hwf : kvWF kv) (hv : v.scheduleId = k) : kvWF (kvPut kv k v) := by
  intro p hp
  simp only [kvPut, List.mem_cons, List.mem_filter] at hp
  rcases hp with hp | hp
  · subst hp; exact hv.symm
  · exact hwf p hp.1

theorem kvWF_delete (kv : KvStore) (k : String) (hwf : kvWF kv) :
    kvWF (kvDelete kv k) := by
  intro p hp
  simp only [kvDelete, List.mem_filter] at hp
  exact hwf p hp.1

theorem kvListAll_ids (kv : KvStore) (q : String)
    (hwf : kvWF kv) (h : kvGet kv q = none) :
    ∀ e ∈ kvListAll kv, e.scheduleId ≠ q := by
  intro e he
  simp only [kvListAll, List.mem_map] at he
  obtain ⟨p, hp, hpe⟩ := he
  simp only [kvGet, Option.map_eq_none'] at h
  rw [List.find?_eq_none] at h
  have := h p hp
  have hid := hwf p hp
  intro hq
  apply this
  simp [hid, hpe, hq]

theorem patchFirst_append (pre : List Schedule) (sc : Schedule) (post : List Schedule)
    (sid : String) (p : SchedulePatch)
    (hpre : ∀ c ∈ pre, c.id ≠ sid) (hsc : sc.id = sid) :
    patchFirst (pre ++ sc :: post) sid p = some (pre ++ applyPatch sc p :: post) := by
  induction pre with
  | nil =>
      have h1 : (sc.id == sid) = true := by simpa using hsc
      simp [patchFirst, h1]
  | cons c rest ih =>
      have hc : (c.id == sid) = false := by
        simpa using hpre c (List.mem_cons_self c rest)
      simp only [List.cons_append, patchFirst, hc, Bool.false_eq_true, if_false,
        List.append_eq]
      rw [ih (fun c' hc' => hpre c' (List.mem_cons_of_mem _ hc'))]
      rfl

theorem jsOrD_some_ne (x d : String) (h : x ≠ "") : jsOrD (some x) d = x := by
  simp [jsOrD, h]

theorem updateSchedule_schedules_decomp (d : ShardData) (sid : String)
    (p : SchedulePatch) (pre : List Schedule) (sc : Schedule) (post : List Schedule)
    (hdec : d.schedules = pre ++ sc :: post)
    (hpre : ∀ c ∈ pre, c.id ≠ sid) (hsc : sc.id = sid) :
    ((updateSchedule d sid p).getD d).schedules
      = pre ++ applyPatch sc p :: post := by
  unfold updateSchedule
  rw [hdec, patchFirst_append pre sc post sid p hpre hsc]
  rfl

theorem backendTemplate_ne (x : String) : "backend error: " ++ x ≠ "" := by
  intro h
  have h2 := congrArg String.length h
  rw [String.length_append] at h2
  have h3 : ("backend error: " : String).length = 15 := rfl
  have h4 : ("" : String).length = 0 := rfl
  omega

theorem failNote_ne (r : ExecResp) :
    jsOrD r.error ("backend error: " ++ toString r.status) ≠ "" := by
  rcases r.error with _ | s
  · exact backendTemplate_ne _
  · rcases eq_or_ne s "" with he | he
    · subst he
      simpa [jsOrD] using backendTemplate_ne (toString r.status)
    · rw [jsOrD_some_ne s _ he]
      exact he

/-- Claim C6: a failed fire appends exactly one transaction with status
`failed` carrying the diagnostic note, sets `nextRun` to the failure-time
clock plus 600 seconds in both the IndexEntry and the shard schedule, and
leaves `times_remaining` untouched. -/
theorem c6_failed_fire_retries
    (env : TickEnv) (st : SystemState) (s : IndexEntry)
    (hdue : ¬ s.nextRun > env.now)
    (hfail : execSuccess (env.resp s.scheduleId) = false)
    (hrec : s.recipient ≠ "")
    (hamt : s.amount ≠ 0)
    (hnow : env.nowIso ≠ "") :
    (∃ e : TxEntry,
      (shardOf (processScheduleEntry env st s).shards (jsToLower s.userAddress)).transactions
        = (shardOf st.shards (jsToLower s.userAddress)).transactions ++ [e] ∧
      e.status = "failed" ∧
      e.note = jsOrD (env.resp s.scheduleId).error
        ("backend error: " ++ toString (env.resp s.scheduleId).status)) ∧
    kvGet (processScheduleEntry env st s).kv s.scheduleId
      = some { s with nextRun := env.retryNow + 600000 } ∧
    (∀ pre sc post,
      (shardOf st.shards (jsToLower s.userAddress)).schedules = pre ++ sc :: post →
      (∀ c ∈ pre, c.id ≠ s.scheduleId) → sc.id = s.scheduleId →
      (shardOf (processScheduleEntry env st s).shards (jsToLower s.userAddress)).schedules
        = pre ++ { sc with nextRun := env.retryNow + 600000 } :: post) := by
  have hr' : (s.recipient == "") = false := by simpa using hrec
  have ha' : (s.amount == 0) = false := by simpa using hamt
  have hn' : (env.nowIso == "") = false := by simpa using hnow
  have hst : (("failed" : String) == "") = false := by decide
  simp only [processScheduleEntry, if_neg hdue, hfail, Bool.false_eq_true, if_false]
  rw [storeTransaction_cron (env.freshId s.scheduleId) env.nowIso env.today
    s.recipient (jsOrD (env.resp s.scheduleId).error
      ("backend error: " ++ toString (env.resp s.scheduleId).status)) "failed" s.amount
    none (shardOf st.shards (jsToLower s.userAddress)) hr' ha' hn' hst]
  refine ⟨⟨cronEntry (env.freshId s.scheduleId) env.nowIso s.recipient
      (jsOrD (env.resp s.scheduleId).error
        ("backend error: " ++ toString (env.resp s.scheduleId).status)) "failed" s.amount none,
    ?_, rfl, ?_⟩, ?_, ?_⟩
  · simp [shardOf_put, updateSchedule_transactions]
  · exact jsOrD_some_ne _ _ (failNote_ne (env.resp s.scheduleId))
  · simp [kvGet_put]
  · intro pre sc post hdec hpre hsc
    simp only [shardOf_put]
    exact updateSchedule_schedules_decomp _ s.scheduleId _ pre sc post hdec hpre hsc

theorem processScheduleEntry_kvWF (env : TickEnv) (st : SystemState) (s : IndexEntry)
    (hwf : kvWF st.kv) : kvWF (processScheduleEntry env st s).kv := by
  simp only [processScheduleEntry]
  split_ifs
  · exact hwf
  · exact kvWF_delete st.kv s.scheduleId hwf
  · exact kvWF_put st.kv s.scheduleId _ hwf rfl
  · exact kvWF_put st.kv s.scheduleId _ hwf rfl

theorem processScheduleEntry_absent (env : TickEnv) (st : SystemState) (s : IndexEntry)
    (q : String) (hne : s.scheduleId ≠ q) (h : kvGet st.kv q = none) :
    kvGet (processScheduleEntry env st s).kv q = none := by
  simp only [processScheduleEntry]
  split_ifs
  · exact h
  · exact kvGet_none_delete st.kv s.scheduleId q h
  · rw [kvGet_put_ne st.kv s.scheduleId _ q (Ne.symm hne)]; exact h
  · rw [kvGet_put_ne st.kv s.scheduleId _ q (Ne.symm hne)]; exact h

theorem foldl_absent (env : TickEnv) (q : String) (l : List IndexEntry) :
    ∀ st : SystemState, (∀ e ∈ l, e.scheduleId ≠ q) →
    kvGet st.kv q = none → kvWF st.kv →
    kvGet (l.foldl (processScheduleEntry env) st).kv q = none ∧
      kvWF (l.foldl (processScheduleEntry env) st).kv := by
  induction l with
  | nil => intro st _ h hwf; exact ⟨h, hwf⟩
  | cons e rest ih =>
      intro st hl h hwf
      have h1 := processScheduleEntry_absent env st e q
        (hl e (List.mem_cons_self e rest)) h
      have h2 := processScheduleEntry_kvWF env st e hwf
      exact ih (processScheduleEntry env st e)
        (fun e' he' => hl e' (List.mem_cons_of_mem _ he')) h1 h2

theorem tick_absent (env : TickEnv) (st : SystemState) (q : String)
    (h : kvGet st.kv q = none) (hwf : kvWF st.kv) :
    kvGet (processDueSchedules env st).kv q = none ∧
      kvWF (processDueSchedules env st).kv ∧
      q ∉ firedIds env st := by
  have hids := kvListAll_ids st.kv q hwf h
  refine ⟨(foldl_absent env q (kvListAll st.kv) st hids h hwf).1,
          (foldl_absent env q (kvListAll st.kv) st hids h hwf).2, ?_⟩
  intro hq
  simp only [firedIds, List.mem_map, List.mem_filter] at hq
  obtain ⟨e, ⟨he, _⟩, heq⟩ := hq
  exact hids e he heq

theorem runTicks_absent (q : String) (envs : List TickEnv) :
    ∀ st : SystemState, kvGet st.kv q = none → kvWF st.kv →
    kvGet (runTicks envs st).kv q = none ∧ q ∉ firedDuring envs st := by
  induction envs with
  | nil =>
      intro st h _
      exact ⟨h, by simp [firedDuring]⟩
  | cons e rest ih =>
      intro st h hwf
      obtain ⟨h1, h2, h3⟩ := tick_absent e st q h hwf
      obtain ⟨h4, h5⟩ := ih (processDueSchedules e st) h1 h2
      refine ⟨h4, ?_⟩
      simp only [firedDuring, List.mem_append]
      rintro (hq | hq)
      · exact h3 hq
      · exact h5 hq

/-- Claim C5: when a successful fire decrements a defined `times_remaining`
from one to zero, the IndexEntry is deleted from the KV index, the shard
schedule is patched to `active := false, times_remaining := 0`, and over any
sequence of subsequent ticks no IndexEntry for the schedule exists and the
schedule is never fired again. -/
theorem c5_exhausted_schedule_retired
    (env : TickEnv) (st : SystemState) (s : IndexEntry)
    (hdue : ¬ s.nextRun > env.now)
    (hsucc : execSuccess (env.resp s.scheduleId) = true)
    (hrec : s.recipient ≠ "")
    (hamt : s.amount ≠ 0)
    (hnow : env.nowIso ≠ "")
    (htr : s.times_remaining = some 1)
    (hwf : kvWF st.kv) :
    kvGet (processScheduleEntry env st s).kv s.scheduleId = none ∧
    (∀ pre sc post,
      (shardOf st.shards (jsToLower s.userAddress)).schedules = pre ++ sc :: post →
      (∀ c ∈ pre, c.id ≠ s.scheduleId) → sc.id = s.scheduleId →
      (shardOf (processScheduleEntry env st s).shards (jsToLower s.userAddress)).schedules
        = pre ++ { sc with active := false, times_remaining := some 0 } :: post) ∧
    (∀ envs : List TickEnv,
      kvGet (runTicks envs (processScheduleEntry env st s)).kv s.scheduleId = none ∧
      s.scheduleId ∉ firedDuring envs (processScheduleEntry env st s)) := by
  have hr' : (s.recipient == "") = false := by simpa using hrec
  have ha' : (s.amount == 0) = false := by simpa using hamt
  have hn' : (env.nowIso == "") = false := by simpa using hnow
  have hst : (("completed" : String) == "") = false := by decide
  have hfin : timesFinished (Option.map (fun v => v - 1) s.times_remaining) = true := by
    rw [htr]; decide
  have habs : kvGet (processScheduleEntry env st s).kv s.scheduleId = none := by
    simp only [processScheduleEntry, if_neg hdue, hsucc, if_true, hfin]
    exact kvGet_delete st.kv s.scheduleId
  have hwf' : kvWF (processScheduleEntry env st s).kv :=
    processScheduleEntry_kvWF env st s hwf
  refine ⟨habs, ?_, ?_⟩
  · intro pre sc post hdec hpre hsc
    simp only [processScheduleEntry, if_neg hdue, hsucc, if_true, hfin]
    rw [storeTransaction_cron (env.freshId s.scheduleId) env.nowIso env.today
      s.recipient (jsOrD s.note "") "completed" s.amount
      (jsOr (env.resp s.scheduleId).txHash none)
      (shardOf st.shards (jsToLower s.userAddress)) hr' ha' hn' hst]
    simp only [shardOf_put]
    exact updateSchedule_schedules_decomp _ s.scheduleId _ pre sc post hdec hpre hsc
  · intro envs
    exact runTicks_absent s.scheduleId envs (processScheduleEntry env st s) habs hwf'

/-- Claim C4 (amended): interval advancement strictly increases `nextRun` for
every interval value and every defined nonnegative `intervalMs` (a defined
negative `intervalMs` decreases it, see the counterexample). -/
theorem c4_nextRun_strictly_increases (t : Int) (interval : Option String)
    (ims : Option Int) (hpos : ∀ v, ims = some v → 0 ≤ v) :
    t < incrementNextRun t interval ims := by
  unfold incrementNextRun
  rcases ims with _ | k
  · exact incrementByInterval_gt t interval
  · have hk := hpos k rfl
    by_cases h : k = 0
    · simp only [h, ne_eq, not_true_eq_false, if_false]
      exact incrementByInterval_gt t interval
    · simp only [ne_eq, h, not_false_eq_true, if_true]
      omega

/-- Claim C3 (amended): monthly advancement adds exactly the length of the
current UTC month in days, so the day-of-month is preserved only when it
exists in the following month and otherwise rolls over into the month after;
in particular 2025-01-31T00:00:00Z advances to 2025-03-03T00:00:00Z. -/
theorem c3_monthly_adds_current_month_length :
    (∀ t : Int, incrementNextRun t (some "monthly") none
        = t + monthLen (utcYear t) (utcMonth t) * 86400000) ∧
    incrementNextRun (daysFromCivil 2025 1 31 * 86400000) (some "monthly") none
      = daysFromCivil 2025 3 3 * 86400000 := by
  have hgen : ∀ t : Int, incrementNextRun t (some "monthly") none
      = t + monthLen (utcYear t) (utcMonth t) * 86400000 := by
    intro t
    show incrementByInterval t (some "monthly") = _
    unfold incrementByInterval
    rw [if_neg (by decide), if_neg (by decide), if_pos rfl]
    exact setUTCMonth_next t
  refine ⟨hgen, ?_⟩
  decide

/-- Claim C2 (code bug): `handleVerify` never compares the recovered signer
with the shard address.  A cryptographically valid signature over the
canonical message produced by an address other than the shard owner is
accepted (`ok`) and consumes the nonce, where the claim requires
InvalidSignature with the nonce unconsumed. -/
theorem c2_foreign_signature_accepted :
    validSignatureFor "0xattacker" (canonicalMessage "483920")
      { wellFormed := true, signer := "0xattacker", message := canonicalMessage "483920" } ∧
    "0xattacker" ≠ "0xalice" ∧
    handleVerify "0xalice" { nonce := some "483920", updated_at := none }
      { wellFormed := true, signer := "0xattacker", message := canonicalMessage "483920" }
      = (.ok, { nonce := none, updated_at := none }) := by
  refine ⟨⟨rfl, rfl, rfl⟩, by decide, by decide⟩

/-- Claim C7 (amended): with the query lowercased and whitespace-trimmed, a
unique exact name match is returned regardless of how many substring matches
exist; substring matches are consulted only when there is no exact match, and
two or more matches of the winning class yield an ambiguous result. -/
theorem c7_exact_match_priority (recipients : List Recipient) (q : String) :
    (∀ r, recipients.filter (fun x => jsToLower x.name == jsTrim (jsToLower q)) = [r] →
        getRecipientByName recipients q = .exactM r) ∧
    (∀ r r' rest,
        recipients.filter (fun x => jsToLower x.name == jsTrim (jsToLower q))
          = r :: r' :: rest →
        getRecipientByName recipients q = .ambiguousM (r :: r' :: rest)) ∧
    (recipients.filter (fun x => jsToLower x.name == jsTrim (jsToLower q)) = [] →
      (∀ r, recipients.filter
            (fun x => jsIncludes (jsToLower x.name) (jsTrim (jsToLower q))) = [r] →
          getRecipientByName recipients q = .subM r) ∧
      (∀ r r' rest,
          recipients.filter
            (fun x => jsIncludes (jsToLower x.name) (jsTrim (jsToLower q)))
            = r :: r' :: rest →
          getRecipientByName recipients q = .ambiguousM (r :: r' :: rest)) ∧
      (recipients.filter
          (fun x => jsIncludes (jsToLower x.name) (jsTrim (jsToLower q))) = [] →
        getRecipientByName recipients q = .notFoundM)) := by
  refine ⟨?_, ?_, ?_⟩
  · intro r h
    simp only [getRecipientByName, h]
  · intro r r' rest h
    simp only [getRecipientByName, h]
  · intro he
    refine ⟨?_, ?_, ?_⟩
    · intro r h
      simp only [getRecipientByName, he, h]
    · intro r r' rest h
      simp only [getRecipientByName, he, h]
    · intro h
      simp only [getRecipientByName, he, h]

/-- Claim C8 (amended): a worker request whose timestamp differs from the
server clock by more than 300 seconds is rejected with HTTP 401 (error
"Timestamp too old"), not with a 403 forbidden, and the request never
proceeds to payment execution; a request within the window is not rejected
for staleness. -/
theorem c8_stale_rejected_with_401 (hmac : String → String → String) (secret : String)
    (now : Int) (req : AuthReq) (ts : Int)
    (hm : req.method = "POST")
    (hsig : strTruthy req.signature = true)
    (hts : req.timestamp = some ts) :
    (300000 < |now - ts| →
      workerAuth hmac secret now req = .reject 401 "Timestamp too old" ∧
      workerAuth hmac secret now req ≠ .proceed) ∧
    (|now - ts| ≤ 300000 →
      workerAuth hmac secret now req ≠ .reject 401 "Timestamp too old") := by
  rcases hs : req.signature with _ | sg
  · rw [hs] at hsig; simp [strTruthy] at hsig
  · have hmt : ¬ (req.method ≠ "POST" ∧ req.method ≠ "PUT") := by
      rw [hm]; simp
    have hpres : ¬ ((!strTruthy req.signature) = true ∨ req.timestamp = none) := by
      rw [hsig, hts]
      simp
    constructor
    · intro hstale
      unfold workerAuth
      rw [if_neg hmt, if_neg hpres, hs, hts]
      dsimp only
      rw [if_pos (by omega : 5 * 60 * 1000 < |now - ts|)]
      exact ⟨rfl, by simp⟩
    · intro hfresh
      unfold workerAuth
      rw [if_neg hmt, if_neg hpres, hs, hts]
      dsimp only
      rw [if_neg (by omega : ¬ (5 * 60 * 1000 < |now - ts|))]
      split_ifs <;> simp

/-- Claim C9: every stored transaction record takes the freshly generated
UUID as its `id` and the time of storage as its `timestamp`; caller-supplied
`id`, `timestamp` and `scheduleId` are discarded, and the stored record
carries no `scheduleId`. -/
theorem c9_storeTransaction_fresh_identity
    (fid nowIso today : String) (tx : TxInput) (st : ShardData) :
    (∀ st' e, storeTransaction fid nowIso today tx st = some (st', e) →
        e.id = fid ∧ e.timestamp = nowIso ∧ e.scheduleId = none ∧
        st'.transactions = st.transactions ++ [e]) ∧
    (∀ i ts sid, storeTransaction fid nowIso today
        { tx with id := i, timestamp := ts, scheduleId := sid } st
      = storeTransaction fid nowIso today tx st) := by
  constructor
  · intro st' e h
    unfold storeTransaction at h
    rcases hna : jsOr tx.address (jsOr tx.recipient (jsOr tx.toAddr none)) with _ | a <;>
      rw [hna] at h
    · simp at h
    · rcases hamt : tx.amount with _ | amt <;> rw [hamt] at h
      · simp at h
      · dsimp only at h
        split_ifs at h with hcheck
        simp only [Option.some.injEq, Prod.mk.injEq] at h
        obtain ⟨hst, he⟩ := h
        subst hst
        subst he
        exact ⟨rfl, rfl, rfl, rfl⟩
  · intro i ts sid
    rfl

/-- Claim C10: every nonce issued by `handleNonce` is the decimal string
representation of a natural number strictly below 1,000,000, hence at most
six decimal digits. -/
theorem c10_nonce_is_small_decimal (r : ℚ) (nowIso : String) (auth : AuthState)
    (h : 0 ≤ r ∧ r < 1) :
    ∃ n : ℕ, (handleNonce r nowIso auth).1 = Nat.repr n ∧ n < 1000000 := by
  refine ⟨(⌊r * 1000000⌋).toNat, rfl, ?_⟩
  have h1 : r * 1000000 < 1000000 := by nlinarith [h.2]
  have h2 : (0 : ℚ) ≤ r * 1000000 := by nlinarith [h.1]
  have h3 : ⌊r * 1000000⌋ < 1000000 := by
    have h4 : ⌊(1000000 : ℚ)⌋ = 1000000 := by norm_num
    have h5 : ⌊r * 1000000⌋ ≤ 1000000 := by rw [← h4]; exact Int.floor_le_floor h1.le
    rcases eq_or_lt_of_le h5 with he | hl
    · exfalso
      have := Int.floor_le (r * 1000000)
      rw [he] at this
      push_cast at this
      linarith
    · exact hl
  have h6 : 0 ≤ ⌊r * 1000000⌋ := Int.floor_nonneg.mpr h2
  omega

/-- Claim C1 counterexample: a concrete successful fire appends exactly one
completed transaction, and no stored transaction carries a `scheduleId` equal
to the fired schedule id, refuting the claim as stated. -/
theorem c1_counterexample :
    execSuccess (c1env.resp c1entry.scheduleId) = true ∧
    (shardOf (processScheduleEntry c1env c1state c1entry).shards "0xalice").transactions.length = 1 ∧
    ∀ e ∈ (shardOf (processScheduleEntry c1env c1state c1entry).shards "0xalice").transactions,
      e.status = "completed" ∧ e.scheduleId ≠ some c1entry.scheduleId := by decide

/-- Claim C1 witness: the amended theorem applied at a concrete fire. -/
theorem c1_witness :
    (¬ c1entry.nextRun > c1env.now) ∧
    execSuccess (c1env.resp c1entry.scheduleId) = true ∧
    c1entry.recipient ≠ "" ∧ c1entry.amount ≠ 0 ∧ c1env.nowIso ≠ "" ∧
    (∃ e : TxEntry,
      (shardOf (processScheduleEntry c1env c1state c1entry).shards
          (jsToLower c1entry.userAddress)).transactions
        = (shardOf c1state.shards (jsToLower c1entry.userAddress)).transactions ++ [e] ∧
      e.status = "completed" ∧
      e.txHash = jsOr (c1env.resp c1entry.scheduleId).txHash none ∧
      e.scheduleId = none) :=
  ⟨by decide, by decide, by decide, by decide, by decide,
    c1_success_appends_one_completed_tx c1env c1state c1entry
      (by decide) (by decide) (by decide) (by decide) (by decide)⟩

/-- Claim C3 counterexample: advancing a monthly schedule from
2025-01-31T00:00:00Z yields 2025-03-03T00:00:00Z, not the claimed clamped
2025-02-28T00:00:00Z. -/
theorem c3_counterexample :
    incrementNextRun (daysFromCivil 2025 1 31 * 86400000) (some "monthly") none
        = daysFromCivil 2025 3 3 * 86400000 ∧
    incrementNextRun (daysFromCivil 2025 1 31 * 86400000) (some "monthly") none
        ≠ daysFromCivil 2025 2 28 * 86400000 := by decide

/-- Claim C4 counterexample: a defined negative `intervalMs` makes the next
`nextRun` strictly smaller, refuting the claim for arbitrary defined
`intervalMs`. -/
theorem c4_counterexample :
    incrementNextRun 1000 (some "daily") (some (-60000)) = -59000 ∧
    incrementNextRun 1000 (some "daily") (some (-60000)) < 1000 := by decide

/-- Claim C4 witness: the amended theorem applied at a concrete input. -/
theorem c4_witness :
    (∀ v : Int, (none : Option Int) = some v → 0 ≤ v) ∧
    (0 : Int) < incrementNextRun 0 (some "monthly") none :=
  ⟨fun _ h => Option.noConfusion h,
    c4_nextRun_strictly_increases 0 (some "monthly") none
      (fun _ h => Option.noConfusion h)⟩

/-- Claim C5 witness: the theorem applied at a concrete exhausted schedule. -/
theorem c5_witness :
    (¬ c5entry.nextRun > c5env.now) ∧
    execSuccess (c5env.resp c5entry.scheduleId) = true ∧
    c5entry.recipient ≠ "" ∧ c5entry.amount ≠ 0 ∧ c5env.nowIso ≠ "" ∧
    c5entry.times_remaining = some 1 ∧ kvWF c5state.kv ∧
    (kvGet (processScheduleEntry c5env c5state c5entry).kv c5entry.scheduleId = none ∧
    (∀ pre sc post,
      (shardOf c5state.shards (jsToLower c5entry.userAddress)).schedules = pre ++ sc :: post →
      (∀ c ∈ pre, c.id ≠ c5entry.scheduleId) → sc.id = c5entry.scheduleId →
      (shardOf (processScheduleEntry c5env c5state c5entry).shards
          (jsToLower c5entry.userAddress)).schedules
        = pre ++ { sc with active := false, times_remaining := some 0 } :: post) ∧
    (∀ envs : List TickEnv,
      kvGet (runTicks envs (processScheduleEntry c5env c5state c5entry)).kv
          c5entry.scheduleId = none ∧
      c5entry.scheduleId ∉ firedDuring envs (processScheduleEntry c5env c5state c5entry))) :=
  ⟨by decide, by decide, by decide, by decide, by decide, rfl,
    by intro p hp; simp only [c5state, List.mem_singleton] at hp; subst hp; rfl,
    c5_exhausted_schedule_retired c5env c5state c5entry
      (by decide) (by decide) (by decide) (by decide) (by decide) rfl
      (by intro p hp; simp only [c5state, List.mem_singleton] at hp; subst hp; rfl)⟩

/-- Claim C6 witness: the theorem applied at a concrete failing fire. -/
theorem c6_witness :
    (¬ c6entry.nextRun > c6env.now) ∧
    execSuccess (c6env.resp c6entry.scheduleId) = false ∧
    c6entry.recipient ≠ "" ∧ c6entry.amount ≠ 0 ∧ c6env.nowIso ≠ "" ∧
    ((∃ e : TxEntry,
      (shardOf (processScheduleEntry c6env c6state c6entry).shards
          (jsToLower c6entry.userAddress)).transactions
        = (shardOf c6state.shards (jsToLower c6entry.userAddress)).transactions ++ [e] ∧
      e.status = "failed" ∧
      e.note = jsOrD (c6env.resp c6entry.scheduleId).error
        ("backend error: " ++ toString (c6env.resp c6entry.scheduleId).status)) ∧
    kvGet (processScheduleEntry c6env c6state c6entry).kv c6entry.scheduleId
      = some { c6entry with nextRun := c6env.retryNow + 600000 } ∧
    (∀ pre sc post,
      (shardOf c6state.shards (jsToLower c6entry.userAddress)).schedules = pre ++ sc :: post →
      (∀ c ∈ pre, c.id ≠ c6entry.scheduleId) → sc.id = c6entry.scheduleId →
      (shardOf (processScheduleEntry c6env c6state c6entry).shards
          (jsToLower c6entry.userAddress)).schedules
        = pre ++ { sc with nextRun := c6env.retryNow + 600000 } :: post)) :=
  ⟨by decide, by decide, by decide, by decide, by decide,
    c6_failed_fire_retries c6env c6state c6entry
      (by decide) (by decide) (by decide) (by decide) (by decide)⟩

/-- Claim C7 counterexample: with recipients named " alice" and "malice"
and the query " alice", exactly one recipient name equals the query
case-insensitively, yet the code trims the query and answers ambiguous
instead of returning that exact match. -/
theorem c7_counterexample :
    ([c7r1, c7r2].filter (fun x => jsToLower x.name == jsToLower " alice") = [c7r1]) ∧
    getRecipientByName [c7r1, c7r2] " alice" = .ambiguousM [c7r1, c7r2] ∧
    getRecipientByName [c7r1, c7r2] " alice" ≠ .exactM c7r1 := by decide

/-- Claim C7 witness: the amended theorem applied at a concrete store. -/
theorem c7_witness :
    ([c7wr].filter (fun x => jsToLower x.name == jsTrim (jsToLower "ALICE")) = [c7wr]) ∧
    getRecipientByName [c7wr] "ALICE" = .exactM c7wr :=
  ⟨by decide, (c7_exact_match_priority [c7wr] "ALICE").1 c7wr (by decide)⟩

/-- Claim C8 counterexample: a request 301 seconds stale is rejected with
status 401, not with the claimed forbidden (403) error. -/
theorem c8_counterexample :
    300000 < |(1301000 : Int) - 1000000| ∧
    workerAuth c8hmac "sec" 1301000 c8req = .reject 401 "Timestamp too old" ∧
    isForbidden (workerAuth c8hmac "sec" 1301000 c8req) = false := by decide

/-- Claim C8 witness: the amended theorem applied at a request 299 seconds
old. -/
theorem c8_witness :
    c8req.method = "POST" ∧ strTruthy c8req.signature = true ∧
    c8req.timestamp = some 1000000 ∧
    ((300000 < |(1299000 : Int) - 1000000| →
      workerAuth c8hmac "sec" 1299000 c8req = .reject 401 "Timestamp too old" ∧
      workerAuth c8hmac "sec" 1299000 c8req ≠ .proceed) ∧
    (|(1299000 : Int) - 1000000| ≤ 300000 →
      workerAuth c8hmac "sec" 1299000 c8req ≠ .reject 401 "Timestamp too old")) :=
  ⟨rfl, by decide, rfl,
    c8_stale_rejected_with_401 c8hmac "sec" 1299000 c8req 1000000 rfl (by decide) rfl⟩

/-- Claim C9 witness: the theorem applied at a concrete payload carrying
caller-supplied `id`, `timestamp` and `scheduleId`. -/
theorem c9_witness :
    (∃ st' e, storeTransaction "fresh-9" "TS" "TD" c9tx {} = some (st', e) ∧
      (e.id = "fresh-9" ∧ e.timestamp = "TS" ∧ e.scheduleId = none ∧
        st'.transactions = ({} : ShardData).transactions ++ [e])) ∧
    storeTransaction "fresh-9" "TS" "TD"
        { c9tx with id := some "A", timestamp := some "B", scheduleId := some "C" } {}
      = storeTransaction "fresh-9" "TS" "TD" c9tx {} :=
  ⟨⟨_, _, rfl, (c9_storeTransaction_fresh_identity "fresh-9" "TS" "TD" c9tx {}).1 _ _ rfl⟩,
    (c9_storeTransaction_fresh_identity "fresh-9" "TS" "TD" c9tx {}).2
      (some "A") (some "B") (some "C")⟩

/-- Claim C10 witness: the theorem applied at the draw `r = 0`. -/
theorem c10_witness :
    (0 ≤ (0 : ℚ) ∧ (0 : ℚ) < 1) ∧
    ∃ n : ℕ, (handleNonce 0 "T" {}).1 = Nat.repr n ∧ n < 1000000 :=
  ⟨⟨le_refl 0, zero_lt_one⟩,
    c10_nonce_is_small_decimal 0 "T" {} ⟨le_refl 0, zero_lt_one⟩⟩
